import Mathlib

/-!
Verification of the serial-bridge APB register access codec
(`apb/sw/python/apb.py`).

The transport (`iface`) is modelled as a deterministic state machine with a
`write` and a `read` method.  The two bridge methods `read` and `write` are
translated statement by statement; every transport call is also recorded in an
event trace so that ordering and counting properties ("exactly one write call,
then at most two read calls") can be stated.  Failures (the Python `assert`
statements, the `SLVERR` exception, and the `IndexError` that `read(1)[0]`
would raise on an empty reply) are modelled in an `Except` result.
-/

namespace Apb

/-- One transport interaction: a call to `iface.write` with the transmitted
bytes, or a call to `iface.read n` together with the bytes it returned. -/
inductive Ev where
  | wr (data : List Nat)
  | rd (n : Nat) (res : List Nat)
deriving DecidableEq, Repr

/-- The serial interface collaborator: `write` consumes bytes, `read n`
produces bytes; both may update the transport state `σ`. -/
structure Iface (σ : Type) where
  write : σ → List Nat → σ
  read : σ → Nat → List Nat × σ

/-- The Python exceptions the module can raise: the two `assert` statements
(with their messages), the `SLVERR` exception raised by `read` (its f-string
carries the byte address) and by `write` (byte address and data), and the
`IndexError` of `self.iface.read(1)[0]` on an empty reply. -/
inductive PyError where
  | assertionError (msg : String)
  | slverrRead (addr : Nat)
  | slverrWrite (addr : Nat) (data : Nat)
  | indexError
deriving DecidableEq, Repr

/-- `class SerialBridge`: the two fields set in `__init__`. -/
structure SerialBridge (σ : Type) where
  addr_byte_count : Nat
  iface : Iface σ

def SerialBridge._READ : Nat := 0b000
def SerialBridge._WRITE : Nat := 0b001
def SerialBridge._BLOCK_READ : Nat := 0b010
def SerialBridge._BLOCK_WRITE : Nat := 0b011
def SerialBridge._CYCLIC_READ : Nat := 0b100
def SerialBridge._CYCLIC_WRITE : Nat := 0b101
def SerialBridge._RMW : Nat := 0b110

/-- The loop `for i in reversed(range(k)): tx_buf.append((x >> i * 8) & 0xFF)`:
the bytes it appends, in order. -/
def appendBytesBE (k x : Nat) : List Nat :=
  (List.range k).reverse.map fun i => (x >>> (i * 8)) &&& 0xFF

/-- `int.from_bytes(bs, byteorder='big')` for a list of byte values. -/
def intFromBytesBE (bs : List Nat) : Nat :=
  bs.foldl (fun acc b => acc * 256 + b) 0

/-- Outcome of one method call: the returned value or raised exception, the
object after the call, the transport state after the call, and the trace of
transport interactions made during the call. -/
structure MOut (σ α : Type) where
  result : Except PyError α
  self : SerialBridge σ
  st : σ
  tr : List Ev

/-- The `tx_buf` built by `read` for the byte address `baddr`:
`tx_buf = [self._READ << 5]` followed by the appended address bytes. -/
def readTxBuf (abc baddr : Nat) : List Nat :=
  (SerialBridge._READ <<< 5) :: appendBytesBE abc baddr

/-- The `tx_buf` built by `write` for the byte address `baddr` and `data`:
`tx_buf = [self._WRITE << 5]` followed by the appended address bytes and then
the appended data bytes. -/
def writeTxBuf (abc baddr data : Nat) : List Nat :=
  (SerialBridge._WRITE <<< 5) :: (appendBytesBE abc baddr ++ appendBytesBE 4 data)

/-- `SerialBridge.read`: read data from a single register. -/
def SerialBridge.read {σ : Type} (self : SerialBridge σ) (st : σ) (addr : Nat) :
    MOut σ Nat :=
  let addr := addr <<< 2
  if 0 ≤ addr ∧ addr < 2 ^ (8 * self.addr_byte_count) - 1 then
    let tx_buf := readTxBuf self.addr_byte_count addr
    let st := self.iface.write st tx_buf
    let pr := self.iface.read st 1
    match pr.1 with
    | [] => ⟨.error .indexError, self, pr.2, [.wr tx_buf, .rd 1 pr.1]⟩
    | status :: rest =>
      if status &&& 0x80 ≠ 0 then
        ⟨.error (.slverrRead addr), self, pr.2, [.wr tx_buf, .rd 1 (status :: rest)]⟩
      else
        let pr2 := self.iface.read pr.2 4
        ⟨.ok (intFromBytesBE pr2.1), self, pr2.2,
          [.wr tx_buf, .rd 1 (status :: rest), .rd 4 pr2.1]⟩
  else
    ⟨.error (.assertionError "addr overrange"), self, st, []⟩

/-- `SerialBridge.write`: write data to a single register. -/
def SerialBridge.write {σ : Type} (self : SerialBridge σ) (st : σ)
    (addr : Nat) (data : Nat) : MOut σ Unit :=
  let addr := addr <<< 2
  if 0 ≤ addr ∧ addr < 2 ^ (8 * self.addr_byte_count) - 1 then
    if 0 ≤ data ∧ data < 2 ^ 32 - 1 then
      let tx_buf := writeTxBuf self.addr_byte_count addr data
      let st := self.iface.write st tx_buf
      let pr := self.iface.read st 1
      match pr.1 with
      | [] => ⟨.error .indexError, self, pr.2, [.wr tx_buf, .rd 1 pr.1]⟩
      | status :: rest =>
        if status &&& 0x80 ≠ 0 then
          ⟨.error (.slverrWrite addr data), self, pr.2, [.wr tx_buf, .rd 1 (status :: rest)]⟩
        else
          ⟨.ok (), self, pr.2, [.wr tx_buf, .rd 1 (status :: rest)]⟩
    else
      ⟨.error (.assertionError "data overrange"), self, st, []⟩
  else
    ⟨.error (.assertionError "addr overrange"), self, st, []⟩

/-- The sequence of `iface.write` payloads appearing in a trace. -/
def writeCalls (tr : List Ev) : List (List Nat) :=
  tr.filterMap fun e => match e with
    | .wr d => some d
    | .rd _ _ => none

/-- The sequence of `iface.read` calls (requested count, returned bytes)
appearing in a trace. -/
def readCalls (tr : List Ev) : List (Nat × List Nat) :=
  tr.filterMap fun e => match e with
    | .wr _ => none
    | .rd n r => some (n, r)

/-- Spec-side big-endian encoding of `x` in exactly `k` bytes, most
significant byte first: byte `i` is `x / 2 ^ (8 * (k - 1 - i)) % 256`. -/
def beSpec (k x : Nat) : List Nat :=
  (List.range k).map fun i => x / 2 ^ (8 * (k - 1 - i)) % 256

/-- A scripted mock transport: its state is the queue of replies still to be
delivered; `write` ignores the bytes, `read` pops the next reply. -/
def scriptIface : Iface (List (List Nat)) where
  write st _ := st
  read st _ :=
    match st with
    | [] => ([], [])
    | r :: rest => (r, rest)

/-! ### Encoding lemmas -/

theorem beSpec_succ (k x : Nat) :
    beSpec (k + 1) x = x / 2 ^ (8 * k) % 256 :: beSpec k x := by
  simp only [beSpec, List.range_succ_eq_map, List.map_cons, List.map_map]
  congr 1
  apply List.map_congr_left
  intro a _
  show x / 2 ^ (8 * (k + 1 - 1 - (a + 1))) % 256 = x / 2 ^ (8 * (k - 1 - a)) % 256
  have h : 8 * (k + 1 - 1 - (a + 1)) = 8 * (k - 1 - a) := by omega
  rw [h]

theorem appendBytesBE_eq_beSpec (k x : Nat) : appendBytesBE k x = beSpec k x := by
  induction k with
  | zero => rfl
  | succ k ih =>
    have h1 : appendBytesBE (k + 1) x
        = ((x >>> (k * 8)) &&& 0xFF) :: appendBytesBE k x := by
      simp [appendBytesBE, List.range_succ]
    have h3 : (x >>> (k * 8)) &&& 0xFF = x / 2 ^ (8 * k) % 256 := by
      have h := Nat.and_pow_two_sub_one_eq_mod (x >>> (k * 8)) 8
      norm_num at h
      rw [h, Nat.shiftRight_eq_div_pow, Nat.mul_comm]
    rw [h1, h3, ih, beSpec_succ]

theorem beSpec_length (k x : Nat) : (beSpec k x).length = k := by
  simp [beSpec]

theorem beSpec_foldl (k x : Nat) : ∀ acc : Nat,
    (beSpec k x).foldl (fun a b => a * 256 + b) acc
      = acc * 2 ^ (8 * k) + x % 2 ^ (8 * k) := by
  induction k with
  | zero => intro acc; simp [beSpec, Nat.mod_one]
  | succ k ih =>
    intro acc
    rw [beSpec_succ, List.foldl_cons, ih]
    have hp : 2 ^ (8 * (k + 1)) = 2 ^ (8 * k) * 2 ^ 8 := by
      rw [← pow_add]
      ring_nf
    have hm : x % 2 ^ (8 * (k + 1))
        = x % 2 ^ (8 * k) + 2 ^ (8 * k) * (x / 2 ^ (8 * k) % 2 ^ 8) := by
      rw [hp, Nat.mod_mul]
    rw [hm, hp]
    norm_num
    ring

theorem intFromBytesBE_beSpec (k x : Nat) :
    intFromBytesBE (beSpec k x) = x % 2 ^ (8 * k) := by
  simp [intFromBytesBE, beSpec_foldl]

/-! ### Unfolding lemmas for `read` and `write` -/

theorem read_invalid {σ : Type} (b : SerialBridge σ) (st : σ) (addr : Nat)
    (h : ¬ addr <<< 2 < 2 ^ (8 * b.addr_byte_count) - 1) :
    b.read st addr = ⟨.error (.assertionError "addr overrange"), b, st, []⟩ := by
  simp only [SerialBridge.read]
  rw [if_neg]
  intro hc
  exact h hc.2

theorem read_valid {σ : Type} (b : SerialBridge σ) (st : σ) (addr : Nat)
    (h : addr <<< 2 < 2 ^ (8 * b.addr_byte_count) - 1) :
    b.read st addr =
      (let tx := readTxBuf b.addr_byte_count (addr <<< 2)
       let pr := b.iface.read (b.iface.write st tx) 1
       match pr.1 with
       | [] => ⟨.error .indexError, b, pr.2, [.wr tx, .rd 1 pr.1]⟩
       | status :: rest =>
         if status &&& 0x80 ≠ 0 then
           ⟨.error (.slverrRead (addr <<< 2)), b, pr.2, [.wr tx, .rd 1 (status :: rest)]⟩
         else
           let pr2 := b.iface.read pr.2 4
           ⟨.ok (intFromBytesBE pr2.1), b, pr2.2,
             [.wr tx, .rd 1 (status :: rest), .rd 4 pr2.1]⟩ : MOut σ Nat) := by
  simp only [SerialBridge.read]
  rw [if_pos ⟨Nat.zero_le _, h⟩]

theorem write_invalid_addr {σ : Type} (b : SerialBridge σ) (st : σ) (addr data : Nat)
    (h : ¬ addr <<< 2 < 2 ^ (8 * b.addr_byte_count) - 1) :
    b.write st addr data = ⟨.error (.assertionError "addr overrange"), b, st, []⟩ := by
  simp only [SerialBridge.write]
  rw [if_neg]
  intro hc
  exact h hc.2

theorem write_invalid_data {σ : Type} (b : SerialBridge σ) (st : σ) (addr data : Nat)
    (ha : addr <<< 2 < 2 ^ (8 * b.addr_byte_count) - 1)
    (h : ¬ data < 2 ^ 32 - 1) :
    b.write st addr data = ⟨.error (.assertionError "data overrange"), b, st, []⟩ := by
  simp only [SerialBridge.write]
  rw [if_pos ⟨Nat.zero_le _, ha⟩, if_neg]
  intro hc
  exact h hc.2

theorem write_valid {σ : Type} (b : SerialBridge σ) (st : σ) (addr data : Nat)
    (ha : addr <<< 2 < 2 ^ (8 * b.addr_byte_count) - 1)
    (hd : data < 2 ^ 32 - 1) :
    b.write st addr data =
      (let tx := writeTxBuf b.addr_byte_count (addr <<< 2) data
       let pr := b.iface.read (b.iface.write st tx) 1
       match pr.1 with
       | [] => ⟨.error .indexError, b, pr.2, [.wr tx, .rd 1 pr.1]⟩
       | status :: rest =>
         if status &&& 0x80 ≠ 0 then
           ⟨.error (.slverrWrite (addr <<< 2) data), b, pr.2, [.wr tx, .rd 1 (status :: rest)]⟩
         else
           ⟨.ok (), b, pr.2, [.wr tx, .rd 1 (status :: rest)]⟩ : MOut σ Unit) := by
  simp only [SerialBridge.write]
  rw [if_pos ⟨Nat.zero_le _, ha⟩, if_pos ⟨Nat.zero_le _, hd⟩]

theorem readTxBuf_eq (abc baddr : Nat) :
    readTxBuf abc baddr = 0x00 :: beSpec abc baddr := by
  simp [readTxBuf, appendBytesBE_eq_beSpec, SerialBridge._READ]

theorem writeTxBuf_eq (abc baddr data : Nat) :
    writeTxBuf abc baddr data = 0x20 :: (beSpec abc baddr ++ beSpec 4 data) := by
  simp [writeTxBuf, appendBytesBE_eq_beSpec, SerialBridge._WRITE]

/-- A concrete bridge over the scripted mock transport, with
`addr_byte_count = 1`. -/
def bridge1 : SerialBridge (List (List Nat)) := ⟨1, scriptIface⟩

/-- A concrete bridge over the scripted mock transport, with
`addr_byte_count = 2`. -/
def bridge2 : SerialBridge (List (List Nat)) := ⟨2, scriptIface⟩

/-! ### Claim theorems -/

/-- C1: for every `addr_byte_count` in `{1, 2, 3, 4}` and every in-range
register index `addr`, `read addr` makes exactly one transport write call, and
the transmitted frame is the header byte `0b000 <<< 5 = 0x00` followed by
exactly `addr_byte_count` bytes holding the byte address `addr <<< 2`,
most-significant byte first (`beSpec` is the big-endian reference encoding). -/
theorem C1_read_request_frame {σ : Type} (b : SerialBridge σ) (st : σ) (addr : Nat)
    (habc : b.addr_byte_count = 1 ∨ b.addr_byte_count = 2
      ∨ b.addr_byte_count = 3 ∨ b.addr_byte_count = 4)
    (haddr : addr <<< 2 < 2 ^ (8 * b.addr_byte_count) - 1) :
    writeCalls (b.read st addr).tr = [0x00 :: beSpec b.addr_byte_count (addr <<< 2)]
    ∧ (beSpec b.addr_byte_count (addr <<< 2)).length = b.addr_byte_count := by
  refine ⟨?_, beSpec_length _ _⟩
  rw [read_valid b st addr haddr]
  simp only [readTxBuf_eq]
  split <;> (try split) <;> simp [writeCalls]

/-- Witness for C1: `addr_byte_count = 2`, register index `1`. -/
theorem C1_read_request_frame_witness :
    ((bridge2.addr_byte_count = 1 ∨ bridge2.addr_byte_count = 2
        ∨ bridge2.addr_byte_count = 3 ∨ bridge2.addr_byte_count = 4)
      ∧ 1 <<< 2 < 2 ^ (8 * bridge2.addr_byte_count) - 1)
    ∧ (writeCalls (bridge2.read [] 1).tr = [0x00 :: beSpec bridge2.addr_byte_count (1 <<< 2)]
      ∧ (beSpec bridge2.addr_byte_count (1 <<< 2)).length = bridge2.addr_byte_count) :=
  ⟨⟨by decide, by decide⟩, C1_read_request_frame bridge2 [] 1 (by decide) (by decide)⟩

/-- C2: for every `addr_byte_count` in `{1, 2, 3, 4}` and every in-range pair
`(addr, data)`, `write addr data` makes exactly one transport write call, whose
frame is the header byte `0b001 <<< 5 = 0x20`, then exactly `addr_byte_count`
big-endian bytes of the byte address `addr <<< 2`, then exactly 4 big-endian
bytes of `data`. -/
theorem C2_write_request_frame {σ : Type} (b : SerialBridge σ) (st : σ) (addr data : Nat)
    (habc : b.addr_byte_count = 1 ∨ b.addr_byte_count = 2
      ∨ b.addr_byte_count = 3 ∨ b.addr_byte_count = 4)
    (haddr : addr <<< 2 < 2 ^ (8 * b.addr_byte_count) - 1)
    (hdata : data < 2 ^ 32 - 1) :
    writeCalls (b.write st addr data).tr
      = [0x20 :: (beSpec b.addr_byte_count (addr <<< 2) ++ beSpec 4 data)]
    ∧ (beSpec b.addr_byte_count (addr <<< 2)).length = b.addr_byte_count
    ∧ (beSpec 4 data).length = 4 := by
  refine ⟨?_, beSpec_length _ _, beSpec_length _ _⟩
  rw [write_valid b st addr data haddr hdata]
  simp only [writeTxBuf_eq]
  split <;> (try split) <;> simp [writeCalls]

/-- Witness for C2: `addr_byte_count = 1`, `write 3 0xDEADBEEF`. -/
theorem C2_write_request_frame_witness :
    ((bridge1.addr_byte_count = 1 ∨ bridge1.addr_byte_count = 2
        ∨ bridge1.addr_byte_count = 3 ∨ bridge1.addr_byte_count = 4)
      ∧ 3 <<< 2 < 2 ^ (8 * bridge1.addr_byte_count) - 1
      ∧ 0xDEADBEEF < 2 ^ 32 - 1)
    ∧ (writeCalls (bridge1.write [] 3 0xDEADBEEF).tr
        = [0x20 :: (beSpec bridge1.addr_byte_count (3 <<< 2) ++ beSpec 4 0xDEADBEEF)]
      ∧ (beSpec bridge1.addr_byte_count (3 <<< 2)).length = bridge1.addr_byte_count
      ∧ (beSpec 4 0xDEADBEEF).length = 4) :=
  ⟨⟨by decide, by decide, by decide⟩,
    C2_write_request_frame bridge1 [] 3 0xDEADBEEF (by decide) (by decide) (by decide)⟩

theorem read_result_ne_assert {σ : Type} (b : SerialBridge σ) (st : σ) (addr : Nat)
    (h : addr <<< 2 < 2 ^ (8 * b.addr_byte_count) - 1) (msg : String) :
    (b.read st addr).result ≠ .error (.assertionError msg) := by
  rw [read_valid b st addr h]
  simp only []
  split <;> (try split) <;> simp

theorem write_result_ne_assert {σ : Type} (b : SerialBridge σ) (st : σ) (addr data : Nat)
    (ha : addr <<< 2 < 2 ^ (8 * b.addr_byte_count) - 1)
    (hd : data < 2 ^ 32 - 1) (msg : String) :
    (b.write st addr data).result ≠ .error (.assertionError msg) := by
  rw [write_valid b st addr data ha hd]
  simp only []
  split <;> (try split) <;> simp

/-- C3: for every `addr_byte_count ≥ 1`, both `read` and `write` pass the
address check at register index `0` and at the maximum register index
`(2 ^ (8 * addr_byte_count) - 1) / 4` (the maximum representable byte address
divided by the register stride), and fail with the `addr overrange` assertion
at the index one past that maximum — before any transport call is made (the
whole outcome record is the error, with the transport state untouched and an
empty interaction trace). -/
theorem C3_address_boundary {σ : Type} (b : SerialBridge σ) (st : σ) (data : Nat)
    (habc : 1 ≤ b.addr_byte_count) (hdata : data < 2 ^ 32 - 1) :
    ((b.read st 0).result ≠ .error (.assertionError "addr overrange"))
    ∧ ((b.read st ((2 ^ (8 * b.addr_byte_count) - 1) / 4)).result
        ≠ .error (.assertionError "addr overrange"))
    ∧ (b.read st ((2 ^ (8 * b.addr_byte_count) - 1) / 4 + 1)
        = ⟨.error (.assertionError "addr overrange"), b, st, []⟩)
    ∧ ((b.write st 0 data).result ≠ .error (.assertionError "addr overrange"))
    ∧ ((b.write st ((2 ^ (8 * b.addr_byte_count) - 1) / 4) data).result
        ≠ .error (.assertionError "addr overrange"))
    ∧ (b.write st ((2 ^ (8 * b.addr_byte_count) - 1) / 4 + 1) data
        = ⟨.error (.assertionError "addr overrange"), b, st, []⟩) := by
  have hd4 : (4 : Nat) ∣ 2 ^ (8 * b.addr_byte_count) := by
    have h := pow_dvd_pow 2 (show 2 ≤ 8 * b.addr_byte_count by omega)
    simpa using h
  have hN : 256 ≤ 2 ^ (8 * b.addr_byte_count) := by
    calc (256 : Nat) = 2 ^ 8 := by norm_num
    _ ≤ 2 ^ (8 * b.addr_byte_count) := Nat.pow_le_pow_right (by norm_num) (by omega)
  have h0 : (0 : Nat) <<< 2 < 2 ^ (8 * b.addr_byte_count) - 1 := by
    rw [Nat.shiftLeft_eq]
    omega
  have hmax : ((2 ^ (8 * b.addr_byte_count) - 1) / 4) <<< 2
      < 2 ^ (8 * b.addr_byte_count) - 1 := by
    rw [Nat.shiftLeft_eq]
    norm_num
    omega
  have hover : ¬ ((2 ^ (8 * b.addr_byte_count) - 1) / 4 + 1) <<< 2
      < 2 ^ (8 * b.addr_byte_count) - 1 := by
    rw [Nat.shiftLeft_eq]
    norm_num
    omega
  exact ⟨read_result_ne_assert b st 0 h0 _, read_result_ne_assert b st _ hmax _,
    read_invalid b st _ hover,
    write_result_ne_assert b st 0 data h0 hdata _,
    write_result_ne_assert b st _ data hmax hdata _,
    write_invalid_addr b st _ data hover⟩

/-- Witness for C3: `addr_byte_count = 1`; maximum register index is
`255 / 4 = 63` (byte address `252`), index `64` (byte address `256`) fails. -/
theorem C3_address_boundary_witness :
    (1 ≤ bridge1.addr_byte_count ∧ 5 < 2 ^ 32 - 1)
    ∧ (((bridge1.read [] 0).result ≠ .error (.assertionError "addr overrange"))
      ∧ ((bridge1.read [] ((2 ^ (8 * bridge1.addr_byte_count) - 1) / 4)).result
          ≠ .error (.assertionError "addr overrange"))
      ∧ (bridge1.read [] ((2 ^ (8 * bridge1.addr_byte_count) - 1) / 4 + 1)
          = ⟨.error (.assertionError "addr overrange"), bridge1, [], []⟩)
      ∧ ((bridge1.write [] 0 5).result ≠ .error (.assertionError "addr overrange"))
      ∧ ((bridge1.write [] ((2 ^ (8 * bridge1.addr_byte_count) - 1) / 4) 5).result
          ≠ .error (.assertionError "addr overrange"))
      ∧ (bridge1.write [] ((2 ^ (8 * bridge1.addr_byte_count) - 1) / 4 + 1) 5
          = ⟨.error (.assertionError "addr overrange"), bridge1, [], []⟩)) :=
  ⟨⟨by decide, by decide⟩, C3_address_boundary bridge1 [] 5 (by decide) (by decide)⟩

/-- C4: if the byte address is in range and the transport answers the request
frame with status byte `0x00` and then the 4 big-endian bytes of a 32-bit
value `V`, then `read addr` returns exactly `V`. -/
theorem C4_read_roundtrip {σ : Type} (b : SerialBridge σ) (st : σ) (addr V : Nat)
    (haddr : addr <<< 2 < 2 ^ (8 * b.addr_byte_count) - 1)
    (hV : V < 2 ^ 32)
    (h1 : (b.iface.read (b.iface.write st (readTxBuf b.addr_byte_count (addr <<< 2))) 1).1
        = [0x00])
    (h2 : (b.iface.read
        (b.iface.read (b.iface.write st (readTxBuf b.addr_byte_count (addr <<< 2))) 1).2 4).1
        = beSpec 4 V) :
    (b.read st addr).result = .ok V := by
  rw [read_valid b st addr haddr]
  simp only [h1, h2, intFromBytesBE_beSpec]
  norm_num
  omega

/-- Witness for C4, the spec's worked example: `addr_byte_count = 2`,
`read 0x0001` sends the frame `[0x00, 0x00, 0x04]`; the peer replies `[0x00]`
and then `[0x00, 0x00, 0x00, 0x2A]`, and the call returns `42`. -/
theorem C4_read_roundtrip_witness :
    (1 <<< 2 < 2 ^ (8 * bridge2.addr_byte_count) - 1
      ∧ 42 < 2 ^ 32
      ∧ (bridge2.iface.read
          (bridge2.iface.write [[0x00], [0x00, 0x00, 0x00, 0x2A]]
            (readTxBuf bridge2.addr_byte_count (1 <<< 2))) 1).1 = [0x00]
      ∧ (bridge2.iface.read
          (bridge2.iface.read
            (bridge2.iface.write [[0x00], [0x00, 0x00, 0x00, 0x2A]]
              (readTxBuf bridge2.addr_byte_count (1 <<< 2))) 1).2 4).1 = beSpec 4 42)
    ∧ readTxBuf bridge2.addr_byte_count (1 <<< 2) = [0x00, 0x00, 0x04]
    ∧ (bridge2.read [[0x00], [0x00, 0x00, 0x00, 0x2A]] 1).result = .ok 42 :=
  ⟨⟨by decide, by decide, by decide, by decide⟩, by decide,
    C4_read_roundtrip bridge2 [[0x00], [0x00, 0x00, 0x00, 0x2A]] 1 42
      (by decide) (by decide) (by decide) (by decide)⟩

/-- C5: for both operations, if the status byte `s` returned after the frame
has bit 7 set, the call fails with the `SLVERR` error carrying the byte
address (and, for `write`, the data), and the interaction trace ends at the
status read — no further transport read happens. -/
theorem C5_slave_error {σ : Type} (b : SerialBridge σ) (st : σ)
    (addr data s : Nat) (r : List Nat)
    (haddr : addr <<< 2 < 2 ^ (8 * b.addr_byte_count) - 1)
    (hdata : data < 2 ^ 32 - 1)
    (hbit : s &&& 0x80 ≠ 0)
    (hr : (b.iface.read (b.iface.write st (readTxBuf b.addr_byte_count (addr <<< 2))) 1).1
        = s :: r)
    (hw : (b.iface.read
        (b.iface.write st (writeTxBuf b.addr_byte_count (addr <<< 2) data)) 1).1
        = s :: r) :
    ((b.read st addr).result = .error (.slverrRead (addr <<< 2))
      ∧ (b.read st addr).tr
          = [.wr (readTxBuf b.addr_byte_count (addr <<< 2)), .rd 1 (s :: r)])
    ∧ ((b.write st addr data).result = .error (.slverrWrite (addr <<< 2) data)
      ∧ (b.write st addr data).tr
          = [.wr (writeTxBuf b.addr_byte_count (addr <<< 2) data), .rd 1 (s :: r)]) := by
  constructor
  · rw [read_valid b st addr haddr]
    simp only [hr]
    rw [if_pos hbit]
    exact ⟨rfl, rfl⟩
  · rw [write_valid b st addr data haddr hdata]
    simp only [hw]
    rw [if_pos hbit]
    exact ⟨rfl, rfl⟩

/-- Witness for C5, the spec's worked example: `addr_byte_count = 1`,
`write 0x03 0xDEADBEEF` sends `[0x20, 0x0C, 0xDE, 0xAD, 0xBE, 0xEF]`; the peer
replies `[0x80]` and the call fails with `SLVERR` for byte address `0x0C`. -/
theorem C5_slave_error_witness :
    (3 <<< 2 < 2 ^ (8 * bridge1.addr_byte_count) - 1
      ∧ 0xDEADBEEF < 2 ^ 32 - 1
      ∧ 0x80 &&& 0x80 ≠ 0
      ∧ (bridge1.iface.read
          (bridge1.iface.write [[0x80]] (readTxBuf bridge1.addr_byte_count (3 <<< 2))) 1).1
          = 0x80 :: []
      ∧ (bridge1.iface.read
          (bridge1.iface.write [[0x80]]
            (writeTxBuf bridge1.addr_byte_count (3 <<< 2) 0xDEADBEEF)) 1).1
          = 0x80 :: [])
    ∧ writeTxBuf bridge1.addr_byte_count (3 <<< 2) 0xDEADBEEF
        = [0x20, 0x0C, 0xDE, 0xAD, 0xBE, 0xEF]
    ∧ (((bridge1.read [[0x80]] 3).result = .error (.slverrRead (3 <<< 2))
        ∧ (bridge1.read [[0x80]] 3).tr
            = [.wr (readTxBuf bridge1.addr_byte_count (3 <<< 2)), .rd 1 (0x80 :: [])])
      ∧ ((bridge1.write [[0x80]] 3 0xDEADBEEF).result
            = .error (.slverrWrite (3 <<< 2) 0xDEADBEEF)
        ∧ (bridge1.write [[0x80]] 3 0xDEADBEEF).tr
            = [.wr (writeTxBuf bridge1.addr_byte_count (3 <<< 2) 0xDEADBEEF),
                .rd 1 (0x80 :: [])])) :=
  ⟨⟨by decide, by decide, by decide, by decide, by decide⟩, by decide,
    C5_slave_error bridge1 [[0x80]] 3 0xDEADBEEF 0x80 []
      (by decide) (by decide) (by decide) (by decide) (by decide)⟩

/-- C6: given an in-range address, `write addr data` fails with the
`data overrange` assertion exactly when `data` violates the contract
`0 ≤ data < 2 ^ 32 - 1` (over naturals: when `data ≥ 2 ^ 32 - 1`); for every
`data` satisfying the contract no data-range error is raised. -/
theorem C6_data_range {σ : Type} (b : SerialBridge σ) (st : σ) (addr data : Nat)
    (haddr : addr <<< 2 < 2 ^ (8 * b.addr_byte_count) - 1) :
    (b.write st addr data).result = .error (.assertionError "data overrange")
      ↔ ¬ data < 2 ^ 32 - 1 := by
  constructor
  · intro h hd
    exact write_result_ne_assert b st addr data haddr hd _ h
  · intro h
    rw [write_invalid_data b st addr data haddr h]

/-- Witness for C6: at `data = 2 ^ 32 - 1 = 0xFFFFFFFF` (the boundary the
strict bound excludes) the write fails with the data-range assertion. -/
theorem C6_data_range_witness :
    (0 <<< 2 < 2 ^ (8 * bridge1.addr_byte_count) - 1)
    ∧ ((bridge1.write [] 0 0xFFFFFFFF).result = .error (.assertionError "data overrange")
        ↔ ¬ 0xFFFFFFFF < 2 ^ 32 - 1) :=
  ⟨by decide, C6_data_range bridge1 [] 0 0xFFFFFFFF (by decide)⟩

/-- C7: every input that fails address validation (for `read` or `write`) or
data validation (for `write`) produces the assertion failure with an empty
transport trace and an untouched transport state — the failure is raised
before any transport I/O occurs. -/
theorem C7_validation_before_io {σ : Type} (b : SerialBridge σ) (st : σ)
    (addr data : Nat) :
    (¬ addr <<< 2 < 2 ^ (8 * b.addr_byte_count) - 1 →
        b.read st addr = ⟨.error (.assertionError "addr overrange"), b, st, []⟩
      ∧ b.write st addr data = ⟨.error (.assertionError "addr overrange"), b, st, []⟩)
    ∧ (addr <<< 2 < 2 ^ (8 * b.addr_byte_count) - 1 → ¬ data < 2 ^ 32 - 1 →
        b.write st addr data = ⟨.error (.assertionError "data overrange"), b, st, []⟩) :=
  ⟨fun h => ⟨read_invalid b st addr h, write_invalid_addr b st addr data h⟩,
    fun ha hd => write_invalid_data b st addr data ha hd⟩

/-- Witness for C7: with `addr_byte_count = 1`, register index 64 (byte
address 256) fails address validation with no I/O, and `data = 0xFFFFFFFF`
fails data validation with no I/O. -/
theorem C7_validation_before_io_witness :
    ((¬ 64 <<< 2 < 2 ^ (8 * bridge1.addr_byte_count) - 1)
      ∧ bridge1.read [] 64 = ⟨.error (.assertionError "addr overrange"), bridge1, [], []⟩
      ∧ bridge1.write [] 64 0 = ⟨.error (.assertionError "addr overrange"), bridge1, [], []⟩)
    ∧ ((0 <<< 2 < 2 ^ (8 * bridge1.addr_byte_count) - 1)
      ∧ (¬ (0xFFFFFFFF : Nat) < 2 ^ 32 - 1)
      ∧ bridge1.write [] 0 0xFFFFFFFF
          = ⟨.error (.assertionError "data overrange"), bridge1, [], []⟩) :=
  ⟨⟨by decide, ((C7_validation_before_io bridge1 [] 64 0).1 (by decide)).1,
      ((C7_validation_before_io bridge1 [] 64 0).1 (by decide)).2⟩,
    ⟨by decide, by decide,
      (C7_validation_before_io bridge1 [] 0 0xFFFFFFFF).2 (by decide) (by decide)⟩⟩

/-- C8: for in-range inputs (and a transport whose status reply is the byte
`s`), `read` performs exactly one transport write call followed by at most two
transport read calls in that order — the 4-byte payload read happens exactly
when status bit 7 is clear — and `write` performs exactly one transport write
call followed by exactly one transport read call; the traces are literal, so
there are no retries. -/
theorem C8_transport_sequence {σ : Type} (b : SerialBridge σ) (st : σ)
    (addr data s : Nat) (r : List Nat)
    (haddr : addr <<< 2 < 2 ^ (8 * b.addr_byte_count) - 1)
    (hdata : data < 2 ^ 32 - 1)
    (hr : (b.iface.read (b.iface.write st (readTxBuf b.addr_byte_count (addr <<< 2))) 1).1
        = s :: r)
    (hw : (b.iface.read
        (b.iface.write st (writeTxBuf b.addr_byte_count (addr <<< 2) data)) 1).1
        = s :: r) :
    ((s &&& 0x80 = 0 →
        ∃ r2, (b.read st addr).tr
          = [.wr (readTxBuf b.addr_byte_count (addr <<< 2)), .rd 1 (s :: r), .rd 4 r2])
      ∧ (s &&& 0x80 ≠ 0 →
        (b.read st addr).tr
          = [.wr (readTxBuf b.addr_byte_count (addr <<< 2)), .rd 1 (s :: r)]))
    ∧ (b.write st addr data).tr
        = [.wr (writeTxBuf b.addr_byte_count (addr <<< 2) data), .rd 1 (s :: r)] := by
  refine ⟨⟨fun hbit => ?_, fun hbit => ?_⟩, ?_⟩
  · rw [read_valid b st addr haddr]
    simp only [hr]
    rw [if_neg (by simpa using hbit)]
    exact ⟨_, rfl⟩
  · rw [read_valid b st addr haddr]
    simp only [hr]
    rw [if_pos hbit]
  · rw [write_valid b st addr data haddr hdata]
    simp only [hw]
    by_cases hbit : s &&& 0x80 ≠ 0
    · rw [if_pos hbit]
    · rw [if_neg hbit]

/-- Witness for C8: status `0x00` (bit 7 clear), so `read` makes one write
call and two read calls, and `write` makes one write call and one read call. -/
theorem C8_transport_sequence_witness :
    (0 <<< 2 < 2 ^ (8 * bridge2.addr_byte_count) - 1
      ∧ 0 < 2 ^ 32 - 1
      ∧ (bridge2.iface.read
          (bridge2.iface.write [[0x00], [1, 2, 3, 4]]
            (readTxBuf bridge2.addr_byte_count (0 <<< 2))) 1).1 = 0x00 :: []
      ∧ (bridge2.iface.read
          (bridge2.iface.write [[0x00], [1, 2, 3, 4]]
            (writeTxBuf bridge2.addr_byte_count (0 <<< 2) 0)) 1).1 = 0x00 :: [])
    ∧ (((0x00 &&& 0x80 = 0 →
          ∃ r2, (bridge2.read [[0x00], [1, 2, 3, 4]] 0).tr
            = [.wr (readTxBuf bridge2.addr_byte_count (0 <<< 2)), .rd 1 (0x00 :: []),
                .rd 4 r2])
        ∧ (0x00 &&& 0x80 ≠ 0 →
          (bridge2.read [[0x00], [1, 2, 3, 4]] 0).tr
            = [.wr (readTxBuf bridge2.addr_byte_count (0 <<< 2)), .rd 1 (0x00 :: [])]))
      ∧ (bridge2.write [[0x00], [1, 2, 3, 4]] 0 0).tr
          = [.wr (writeTxBuf bridge2.addr_byte_count (0 <<< 2) 0), .rd 1 (0x00 :: [])]) :=
  ⟨⟨by decide, by decide, by decide, by decide⟩,
    C8_transport_sequence bridge2 [[0x00], [1, 2, 3, 4]] 0 0 0x00 []
      (by decide) (by decide) (by decide) (by decide)⟩

/-- C9: no method call mutates the bridge object — whatever the input and
transport behaviour, the `self` coming out of `read` and of `write` is the
object that went in, so the `addr_byte_count` and `iface` fields set in
`__init__` are unchanged. -/
theorem C9_fields_unchanged {σ : Type} (b : SerialBridge σ) (st : σ)
    (addr data : Nat) :
    (b.read st addr).self = b ∧ (b.write st addr data).self = b := by
  constructor
  · simp only [SerialBridge.read]
    split <;> (try split) <;> (try split) <;> rfl
  · simp only [SerialBridge.write]
    split <;> (try split) <;> (try split) <;> (try split) <;> rfl

/-- C10: the reserved low bits of the status byte are ignored — for every
status byte `s` with bit 7 clear (for example `0x7F`), `read` goes on to read
the 4-byte payload and returns its big-endian decoding, and `write` returns
success; only bit 7 decides between success and `SLVERR`. -/
theorem C10_reserved_status_bits {σ : Type} (b : SerialBridge σ) (st : σ)
    (addr data s : Nat) (r : List Nat)
    (haddr : addr <<< 2 < 2 ^ (8 * b.addr_byte_count) - 1)
    (hdata : data < 2 ^ 32 - 1)
    (hs : s &&& 0x80 = 0)
    (hr : (b.iface.read (b.iface.write st (readTxBuf b.addr_byte_count (addr <<< 2))) 1).1
        = s :: r)
    (hw : (b.iface.read
        (b.iface.write st (writeTxBuf b.addr_byte_count (addr <<< 2) data)) 1).1
        = s :: r) :
    ((b.read st addr).result
      = .ok (intFromBytesBE
          (b.iface.read
            (b.iface.read (b.iface.write st (readTxBuf b.addr_byte_count (addr <<< 2))) 1).2
            4).1)
      ∧ (b.read st addr).tr
          = [.wr (readTxBuf b.addr_byte_count (addr <<< 2)), .rd 1 (s :: r),
              .rd 4 (b.iface.read
                (b.iface.read (b.iface.write st (readTxBuf b.addr_byte_count (addr <<< 2))) 1).2
                4).1])
    ∧ (b.write st addr data).result = .ok () := by
  refine ⟨?_, ?_⟩
  · rw [read_valid b st addr haddr]
    simp only [hr]
    rw [if_neg (by simpa using hs)]
    exact ⟨rfl, rfl⟩
  · rw [write_valid b st addr data haddr hdata]
    simp only [hw]
    rw [if_neg (by simpa using hs)]

/-- Witness for C10: status byte `0x7F` — nonzero but with bit 7 clear — still
lets `read` return the decoded payload and `write` succeed. -/
theorem C10_reserved_status_bits_witness :
    (0 <<< 2 < 2 ^ (8 * bridge2.addr_byte_count) - 1
      ∧ 1 < 2 ^ 32 - 1
      ∧ 0x7F &&& 0x80 = 0
      ∧ (bridge2.iface.read
          (bridge2.iface.write [[0x7F], [0, 0, 0, 7]]
            (readTxBuf bridge2.addr_byte_count (0 <<< 2))) 1).1 = 0x7F :: []
      ∧ (bridge2.iface.read
          (bridge2.iface.write [[0x7F], [0, 0, 0, 7]]
            (writeTxBuf bridge2.addr_byte_count (0 <<< 2) 1)) 1).1 = 0x7F :: [])
    ∧ (((bridge2.read [[0x7F], [0, 0, 0, 7]] 0).result
        = .ok (intFromBytesBE
            (bridge2.iface.read
              (bridge2.iface.read (bridge2.iface.write [[0x7F], [0, 0, 0, 7]]
                (readTxBuf bridge2.addr_byte_count (0 <<< 2))) 1).2 4).1)
      ∧ (bridge2.read [[0x7F], [0, 0, 0, 7]] 0).tr
          = [.wr (readTxBuf bridge2.addr_byte_count (0 <<< 2)), .rd 1 (0x7F :: []),
              .rd 4 (bridge2.iface.read
                (bridge2.iface.read (bridge2.iface.write [[0x7F], [0, 0, 0, 7]]
                  (readTxBuf bridge2.addr_byte_count (0 <<< 2))) 1).2 4).1])
      ∧ (bridge2.write [[0x7F], [0, 0, 0, 7]] 0 1).result = .ok ()) :=
  ⟨⟨by decide, by decide, by decide, by decide, by decide⟩,
    C10_reserved_status_bits bridge2 [[0x7F], [0, 0, 0, 7]] 0 1 0x7F []
      (by decide) (by decide) (by decide) (by decide) (by decide)⟩

end Apb
